import Mathlib

/-!
Verification development for the superligstats repository.

The repository consists of two Python files built on pandas:
  src/dashboard.py : table loading, a number formatter (format_number), and a
    leaderboard builder (build_top_table) that filters by minutes played,
    optionally normalizes a metric per 90 minutes, sorts, truncates to the top
    10 rows and formats a display table.
  src/main.py : a top-tacklers extractor (get_top_tacklers_super_lig) with a
    local-CSV fast path and a scraping fallback path.

We embed the data model shallowly: a pandas cell is a `Val` (a string, an
exact rational standing for a finite float, one of the two IEEE infinities
that pandas produces on division by zero, or the missing value NaN/None); a
row is an association list from column names to values, and a DataFrame is a
`Table` (a column-name list plus a row list).  Rational arithmetic models
float arithmetic exactly on the zero/infinity/NaN structure that the verified
properties depend on; binary rounding of finite values is not modelled.  Operations that
raise KeyError in pandas (column selection or sorting on an absent column)
return `none`.
-/

/-- One pandas cell: a string, a finite numeric value (exact rational),
positive or negative infinity (as produced by float division by zero), or the
missing value (NaN / None, both reported missing by pd.isna). -/
inductive Val where
  | str (s : String)
  | num (q : Rat)
  | ninf
  | pinf
  | na
deriving DecidableEq

/-- Exact division of rationals, written via Rat.divInt so that it evaluates
inside the kernel (the library Rat.mul and Rat.inv are irreducible). -/
def ratDiv (a b : Rat) : Rat := Rat.divInt (a.num * (b.den : Int)) ((a.den : Int) * b.num)

/-- Float division as pandas performs it elementwise on numeric Series:
finite / 0 gives a signed infinity (0 / 0 and NaN / anything give NaN),
never an exception.  Strings cannot reach a numeric division in the code
(load_data coerces every non-identifier column to numeric), so they are
mapped to NaN here. -/
def valDiv : Val → Val → Val
  | .na, _ => .na
  | .str _, _ => .na
  | _, .na => .na
  | _, .str _ => .na
  | .num a, .num b =>
      if b.num = 0 then
        (if a.num = 0 then .na else if 0 < a.num then .pinf else .ninf)
      else .num (ratDiv a b)
  | .num _, .pinf => .num 0
  | .num _, .ninf => .num 0
  | .pinf, .num b => if 0 ≤ b.num then .pinf else .ninf
  | .ninf, .num b => if 0 ≤ b.num then .ninf else .pinf
  | .pinf, .pinf => .na
  | .pinf, .ninf => .na
  | .ninf, .pinf => .na
  | .ninf, .ninf => .na

/-- Elementwise comparison `series >= x` as pandas evaluates it for a numeric
column: NaN compares False, infinities compare as extreme values. -/
def valGeNum (v : Val) (x : Rat) : Bool :=
  match v with
  | .num q => decide (x ≤ q)
  | .pinf => true
  | _ => false

/-- Elementwise comparison `series <= x` for a numeric column. -/
def valLeNum (v : Val) (x : Rat) : Bool :=
  match v with
  | .num q => decide (q ≤ x)
  | .ninf => true
  | _ => false

/-- Round a rational to the nearest integer, ties to even, on the exact
value; this is the rounding used by Python string formatting with a fixed
number of decimal places. -/
def roundHalfEven (r : Rat) : Int :=
  let f := r.num.fdiv (r.den : Int)
  let rem := r.num.fmod (r.den : Int)
  if 2 * rem < (r.den : Int) then f
  else if (r.den : Int) < 2 * rem then f + 1
  else if f % 2 = 0 then f else f + 1

/-- Python f-string rendering with exactly two decimal places, applied to the
exact rational value: the value times 100 is rounded half-to-even, then
printed as integer part, a dot, and two fractional digits. -/
def formatFixed2 (q : Rat) : String :=
  let r := roundHalfEven (Rat.divInt (q.num * 100) (q.den : Int))
  let a := r.natAbs
  let sign := if r < 0 then "-" else ""
  sign ++ toString (a / 100) ++ "." ++
    String.mk [Char.ofNat (48 + a % 100 / 10), Char.ofNat (48 + a % 10)]

/-- format_number from src/dashboard.py lines 21-29: missing values render as
the empty string, whole numbers as a bare integer string, other numbers with
two decimal places, and non-numeric values via str().  Python prints the
infinities as inf / -inf under a fixed-precision format. -/
def format_number : Val → String
  | .na => ""
  | .num q => if q.den = 1 then toString q.num else formatFixed2 q
  | .pinf => "inf"
  | .ninf => "-inf"
  | .str s => s

/-- A DataFrame row: an association list from column names to cell values. -/
abbrev Row := List (String × Val)

/-- Cell lookup; an absent column reads as missing (rows are built with the
same key set as the table columns, so this default is never exercised on
well-formed data). -/
def colVal : Row → String → Val
  | [], _ => .na
  | (k, v) :: r, c => if k = c then v else colVal r c

/-- Column-value assignment on one row, as pandas assignment to a column:
an existing column is overwritten in place, a fresh one is appended last. -/
def rowSet (r : Row) (c : String) (v : Val) : Row :=
  if c ∈ r.map Prod.fst then r.map (fun p => if p.1 = c then (c, v) else p)
  else r ++ [(c, v)]

/-- A DataFrame: ordered column names and rows. -/
structure Table where
  cols : List String
  rows : List Row
deriving DecidableEq

/-- Column assignment `df[c] = f(row)`: overwrites an existing column,
appends a fresh one at the right end. -/
def Table.addCol (t : Table) (c : String) (f : Row → Val) : Table :=
  ⟨if c ∈ t.cols then t.cols else t.cols ++ [c],
   t.rows.map fun r => rowSet r c (f r)⟩

/-- Ordering rank of a value class for sorting a numeric column:
-inf below all finite values, +inf above them.  Strings and NaN never reach
the comparison sort (NaN rows are split off first, and sorted columns are
numeric), but the relation is total so placing them in fixed top ranks keeps
it a total preorder. -/
def valRank : Val → Nat
  | .ninf => 0
  | .num _ => 1
  | .pinf => 2
  | .str _ => 3
  | .na => 4

/-- Total boolean comparison on cell values used as the sort key order. -/
def valLeB (a b : Val) : Bool :=
  match a, b with
  | .num x, .num y => decide (x ≤ y)
  | _, _ => decide (valRank a ≤ valRank b)

theorem valLeB_trans (a b c : Val) (hab : valLeB a b = true) (hbc : valLeB b c = true) :
    valLeB a c = true := by
  cases a <;> cases b <;> cases c <;>
    simp_all only [valLeB, valRank, decide_eq_true_eq] <;>
    first
    | rfl
    | omega
    | exact le_trans hab hbc

theorem valLeB_total (a b : Val) : (valLeB a b || valLeB b a) = true := by
  cases a <;> cases b <;>
    simp_all only [valLeB, valRank, Bool.or_eq_true, decide_eq_true_eq] <;>
    first
    | omega
    | exact le_total _ _

/-- Insertion into a sorted list: the new element goes in front of the first
element it compares less-or-equal to. -/
def insertOrd {α : Type} (le : α → α → Bool) (a : α) : List α → List α
  | [] => [a]
  | b :: l => if le a b then a :: b :: l else b :: insertOrd le a l

/-- Insertion sort.  It is a deterministic comparison sort; we use it to model
pandas sort_values on the rows whose key is defined.  (pandas does not
document a tie order for its default sort algorithm, so no theorem below
depends on how rows with equal keys are ordered.) -/
def sortOrd {α : Type} (le : α → α → Bool) : List α → List α
  | [] => []
  | a :: l => insertOrd le a (sortOrd le l)

theorem length_insertOrd {α : Type} (le : α → α → Bool) (a : α) (l : List α) :
    (insertOrd le a l).length = l.length + 1 := by
  induction l with
  | nil => rfl
  | cons b l ih =>
      by_cases h : le a b = true <;> simp [insertOrd, h, ih]

theorem length_sortOrd {α : Type} (le : α → α → Bool) (l : List α) :
    (sortOrd le l).length = l.length := by
  induction l with
  | nil => rfl
  | cons a l ih => simp [sortOrd, length_insertOrd, ih]

theorem mem_insertOrd {α : Type} (le : α → α → Bool) (a x : α) (l : List α) :
    x ∈ insertOrd le a l ↔ x = a ∨ x ∈ l := by
  induction l with
  | nil => simp [insertOrd]
  | cons b l ih =>
      by_cases h : le a b = true <;> simp [insertOrd, h, ih] <;> tauto

theorem mem_sortOrd {α : Type} (le : α → α → Bool) (x : α) (l : List α) :
    x ∈ sortOrd le l ↔ x ∈ l := by
  induction l with
  | nil => simp [sortOrd]
  | cons a l ih => simp [sortOrd, mem_insertOrd, ih]

theorem pairwise_insertOrd {α : Type} (le : α → α → Bool)
    (htrans : ∀ a b c, le a b = true → le b c = true → le a c = true)
    (htotal : ∀ a b, (le a b || le b a) = true)
    (a : α) (l : List α) (hl : l.Pairwise (fun x y => le x y = true)) :
    (insertOrd le a l).Pairwise (fun x y => le x y = true) := by
  induction l with
  | nil => simp [insertOrd]
  | cons b l ih =>
      rcases hl with _ | ⟨hb, hl⟩
      by_cases h : le a b = true
      · rw [insertOrd, if_pos h]
        refine List.Pairwise.cons ?_ (List.Pairwise.cons hb hl)
        intro x hx
        rcases List.mem_cons.mp hx with rfl | hx
        · exact h
        · exact htrans a b x h (hb x hx)
      · have hba : le b a = true := by
          have := htotal a b
          simp [h] at this
          exact this
        rw [insertOrd, if_neg h]
        refine List.Pairwise.cons ?_ (ih hl)
        intro x hx
        rcases (mem_insertOrd le a x l).mp hx with rfl | hx
        · exact hba
        · exact hb x hx

theorem pairwise_sortOrd {α : Type} (le : α → α → Bool)
    (htrans : ∀ a b c, le a b = true → le b c = true → le a c = true)
    (htotal : ∀ a b, (le a b || le b a) = true)
    (l : List α) : (sortOrd le l).Pairwise (fun x y => le x y = true) := by
  induction l with
  | nil => simp [sortOrd]
  | cons a l ih => exact pairwise_insertOrd le htrans htotal a (sortOrd le l) ih

/-- Sort a table by column c, pandas sort_values semantics: rows whose key is
missing go to the end regardless of direction (na_position defaults to
"last"); the remaining rows are ordered by the key in the requested
direction. -/
def sortValues (t : Table) (c : String) (asc : Bool) : Table :=
  ⟨t.cols,
    sortOrd
      (fun r s =>
        if asc then valLeB (colVal r c) (colVal s c) else valLeB (colVal s c) (colVal r c))
      (t.rows.filter fun r => !decide (colVal r c = Val.na)) ++
    t.rows.filter fun r => decide (colVal r c = Val.na)⟩

/-- df[cs]: column selection; pandas raises KeyError when any requested
column is absent, modelled as none. -/
def selectCols (t : Table) (cs : List String) : Option Table :=
  if cs.all (fun c => decide (c ∈ t.cols)) then
    some ⟨cs, t.rows.map fun r => cs.map fun c => (c, colVal r c)⟩
  else none

/-- df.rename(columns = old to new): occurrences of the old label are
replaced, other labels unchanged; renaming an absent label is a no-op. -/
def renameStr (old new c : String) : String := if c = old then new else c

def renRow (old new : String) (r : Row) : Row :=
  r.map fun p => (renameStr old new p.1, p.2)

def renameTable (t : Table) (old new : String) : Table :=
  ⟨t.cols.map (renameStr old new), t.rows.map (renRow old new)⟩

/-- src/dashboard.py lines 42-44: retain rows with minutesPlayed >= min
minutes, only when the column exists and the threshold is positive. -/
def minutesFiltered (df : Table) (min_minutes : Int) : Table :=
  if "minutesPlayed" ∈ df.cols ∧ 0 < min_minutes then
    ⟨df.cols, df.rows.filter fun r => valGeNum (colVal r "minutesPlayed") (mkRat min_minutes 1)⟩
  else df

def per90col (metric : String) : String := metric ++ "_per90"

/-- The per-90 value of one row: work[metric] / (work["minutesPlayed"] / 90.0). -/
def per90val (r : Row) (metric : String) : Val :=
  valDiv (colVal r metric) (valDiv (colVal r "minutesPlayed") (Val.num (mkRat 90 1)))

/-- src/dashboard.py lines 47-51: when per-90 is requested and a minutes
column exists, add the derived column and rank by it; reading work[metric]
raises KeyError when the metric column is absent. -/
def per90Step (t : Table) (metric : String) (per_90 : Bool) : Option (Table × String) :=
  if per_90 ∧ "minutesPlayed" ∈ t.cols then
    if metric ∈ t.cols then
      some (t.addCol (per90col metric) (fun r => per90val r metric), per90col metric)
    else none
  else some (t, metric)

/-- src/dashboard.py lines 40-54: copy, minutes filter, optional per-90
derivation, sort by the ranking column, take the first 10 rows. -/
def rankedTable (df : Table) (metric : String) (per_90 : Bool) (min_minutes : Int)
    (asc : Bool) : Option (Table × String) :=
  match per90Step (minutesFiltered df min_minutes) metric per_90 with
  | none => none
  | some (w, mcol) =>
      if mcol ∈ w.cols then some (⟨w.cols, (sortValues w mcol asc).rows.take 10⟩, mcol)
      else none

/-- display.insert(0, "Rk", range(1, len + 1)). -/
def insertRk (t : Table) : Table :=
  ⟨"Rk" :: t.cols,
   t.rows.enum.map fun p => ("Rk", Val.num (mkRat ((p.1 : Int) + 1) 1)) :: p.2⟩

/-- metric.replace("_", " ").title(): Python title-case uppercases an
alphabetic character that follows a non-alphabetic one and lowercases the
other alphabetic characters. -/
def titleChars : Bool → List Char → List Char
  | _, [] => []
  | prevAlpha, c :: cs =>
      (if prevAlpha then c.toLower else c.toUpper) :: titleChars c.isAlpha cs

def pyTitle (s : String) : String := ⟨titleChars false s.data⟩

def prettyName (metric : String) : String :=
  pyTitle ⟨metric.data.map fun c => if c = '_' then ' ' else c⟩

/-- src/dashboard.py lines 68-76: conditional renames of the age variants to
the fixed label Age and of country to Country. -/
def condRename (t : Table) (old new : String) : Table :=
  if old ∈ t.cols then renameTable t old new else t

def renameAgeCountry (t : Table) : Table :=
  condRename (condRename (condRename (condRename t "age" "Age") "age_x" "Age") "age_y" "Age")
    "country" "Country"

/-- The composite relabelling applied to one column label by the four
conditional renames above (each rename is a no-op on absent labels, so the
composite describes the effect on every label). -/
def relabelCol (c : String) : String :=
  renameStr "country" "Country"
    (renameStr "age_y" "Age" (renameStr "age_x" "Age" (renameStr "age" "Age" c)))

def formatSkip : List String := ["Rk", "player", "team", "country", "Country"]

/-- src/dashboard.py lines 79-81: every column outside the skip list is
mapped through format_number, replacing the cell by its display string. -/
def formatCells (t : Table) : Table :=
  ⟨t.cols,
   t.rows.map fun r =>
     r.map fun p => if p.1 ∈ formatSkip then p else (p.1, Val.str (format_number p.2))⟩

/-- build_top_table from src/dashboard.py lines 32-83. -/
def build_top_table (df : Table) (metric : String) (per_90 : Bool) (min_minutes : Int)
    (asc : Bool) (extra_cols : Option (List String)) : Option Table :=
  match rankedTable df metric per_90 min_minutes asc with
  | none => none
  | some (top, mcol) =>
      let display_cols := ["player", "team", mcol] ++ extra_cols.getD []
      match selectCols top display_cols with
      | none => none
      | some d =>
          some (formatCells (renameAgeCountry (renameTable (insertRk d) mcol (prettyName metric))))

/-- The rows that survive the minutes filter; all of them are ranked (rows
with a missing metric are sorted last, not dropped). -/
def qualifyingRows (df : Table) (min_minutes : Int) : List Row :=
  (minutesFiltered df min_minutes).rows

/-- Age-column resolution, the identical first-match chain in
src/main.py lines 28-34 and src/dashboard.py lines 229-235: plain age first,
then age_x, then age_y. -/
def resolve_age_col (cols : List String) : Option String :=
  if "age" ∈ cols then some "age"
  else if "age_x" ∈ cols then some "age_x"
  else if "age_y" ∈ cols then some "age_y"
  else none

/-- src/main.py lines 36-41: optional inclusive age bounds; a row with a
missing age passes both bounds (the isna disjunct). -/
def ageFiltered (df : Table) (age_col : Option String) (min_age max_age : Option Int) : Table :=
  match age_col with
  | none => df
  | some c =>
      let d1 := match min_age with
        | none => df
        | some a =>
            ⟨df.cols, df.rows.filter fun r =>
              valGeNum (colVal r c) (mkRat a 1) || decide (colVal r c = Val.na)⟩
      match max_age with
      | none => d1
      | some b =>
          ⟨d1.cols, d1.rows.filter fun r =>
            valLeNum (colVal r c) (mkRat b 1) || decide (colVal r c = Val.na)⟩

/-- df.dropna(subset = tackles): drops rows whose tackles cell is missing;
pandas raises KeyError when the subset column is absent. -/
def dropnaTackles (t : Table) : Option Table :=
  if "tackles" ∈ t.cols then
    some ⟨t.cols, t.rows.filter fun r => !decide (colVal r "tackles" = Val.na)⟩
  else none

/-- src/main.py lines 56-58: make sure a column exists, filling it with the
explicit no-value marker (None, which pandas reports as missing). -/
def ensureCol (t : Table) (c : String) : Table :=
  if c ∈ t.cols then t else t.addCol c fun _ => Val.na

def tacklersCols : List String := ["player", "team", "age", "tackles", "position", "nationality"]

/-- The local-CSV fast path of get_top_tacklers_super_lig,
src/main.py lines 24-60: resolve the age column, apply the permissive age
bounds, drop rows missing tackles, sort descending by tackles, take the top
n, normalise the age column name, ensure position and nationality exist, and
select the fixed output columns. -/
def get_top_tacklers_local (df : Table) (top_n : Nat) (min_age max_age : Option Int) :
    Option Table :=
  let age_col := resolve_age_col df.cols
  match dropnaTackles (ageFiltered df age_col min_age max_age) with
  | none => none
  | some df2 =>
      let top : Table := ⟨df2.cols, (sortValues df2 "tackles" false).rows.take top_n⟩
      let top2 := match age_col with
        | some c => if c = "age" then top else renameTable top c "age"
        | none => top
      selectCols (ensureCol (ensureCol top2 "position") "nationality") tacklersCols

/-- A failure signalled by the scraping collaborator (ScraperFC / Sofascore):
either a KeyError carrying the missing key, or some other failure. -/
inductive ScrapeErr where
  | keyErr (k : String)
  | otherErr (msg : String)
deriving DecidableEq

/-- The exact RuntimeError message raised in src/main.py lines 74-79. -/
def fallback_msg : String :=
  "ScraperFC failed while fetching seasons from Sofascore (missing \x27seasons\x27 key in API response). Either update ScraperFC / try again later, or create \x27tackles_joined.csv\x27 and let this function load from it instead."

/-- Outcome of the fallback path boundary: a scraped table, the descriptive
re-raised RuntimeError, or an exception that the except clause does not
catch. -/
inductive FallbackOutcome where
  | ok (t : Table)
  | descriptiveError (msg : String)
  | uncaught (e : ScrapeErr)
deriving DecidableEq

/-- src/main.py lines 65-79: the try / except KeyError around
scrape_player_league_stats; every KeyError from the collaborator is replaced
by the descriptive RuntimeError, other failures propagate. -/
def handle_scrape_result (res : Except ScrapeErr Table) : FallbackOutcome :=
  match res with
  | .ok t => .ok t
  | .error (.keyErr _) => .descriptiveError fallback_msg
  | .error e => .uncaught e

/-- Character-list prefix test (used for the substring test below). -/
def charsStartWith : List Char → List Char → Bool
  | [], _ => true
  | _ :: _, [] => false
  | a :: as, b :: bs => decide (a = b) && charsStartWith as bs

/-- Substring occurrence test on character lists. -/
def charsContain (n : List Char) : List Char → Bool
  | [] => charsStartWith n []
  | c :: cs => charsStartWith n (c :: cs) || charsContain n cs

/-- s contains sub as a contiguous substring. -/
def strContains (s sub : String) : Bool := charsContain sub.data s.data

theorem digitChar_isDigit (n : Nat) (h : n < 10) : (Char.ofNat (48 + n)).isDigit = true := by
  interval_cases n <;> decide

/-- C4: the Number Formatter maps 3.0 to "3", 3.5 to "3.50" and a missing
value to the empty string; in general a missing input formats as "", a whole
numeric value formats as a bare integer string (the decimal digits of its
integer value, no separators, no decimal point), and a numeric value with a
fractional part formats as a string ending in a decimal point followed by
exactly two digits. -/
theorem claim4_formatter :
    format_number (Val.num (mkRat 3 1)) = "3" ∧
    format_number (Val.num (mkRat 7 2)) = "3.50" ∧
    format_number Val.na = "" ∧
    (∀ q : Rat, q.den = 1 → format_number (Val.num q) = toString q.num) ∧
    (∀ q : Rat, q.den ≠ 1 →
      ∃ (intPart : String) (d1 d2 : Char),
        format_number (Val.num q) = intPart ++ "." ++ String.mk [d1, d2] ∧
        d1.isDigit = true ∧ d2.isDigit = true) := by
  refine ⟨by decide, by decide, by decide, ?_, ?_⟩
  · intro q h
    simp [format_number, h]
  · intro q h
    refine ⟨(if roundHalfEven (Rat.divInt (q.num * 100) (q.den : Int)) < 0 then "-" else "") ++
        toString ((roundHalfEven (Rat.divInt (q.num * 100) (q.den : Int))).natAbs / 100),
      Char.ofNat (48 + (roundHalfEven (Rat.divInt (q.num * 100) (q.den : Int))).natAbs % 100 / 10),
      Char.ofNat (48 + (roundHalfEven (Rat.divInt (q.num * 100) (q.den : Int))).natAbs % 10), ?_, ?_, ?_⟩
    · simp [format_number, h, formatFixed2]
    · exact digitChar_isDigit _ (by omega)
    · exact digitChar_isDigit _ (by omega)

theorem claim4_formatter_witness :
    format_number (Val.num (mkRat 4 1)) = toString (mkRat 4 1).num ∧
    (∃ (intPart : String) (d1 d2 : Char),
      format_number (Val.num (mkRat 5 2)) = intPart ++ "." ++ String.mk [d1, d2] ∧
      d1.isDigit = true ∧ d2.isDigit = true) :=
  ⟨claim4_formatter.2.2.2.1 (mkRat 4 1) (by decide),
   claim4_formatter.2.2.2.2 (mkRat 5 2) (by decide)⟩

/-- C10: in the fallback path, every KeyError from the scraping collaborator
is caught and replaced by the descriptive RuntimeError (never left as an
uncaught, unexplained failure), and that error text names both the upstream
cause (the missing seasons key in the API response) and the remediation (the
local tackles_joined.csv table). -/
theorem claim10_fallback_error :
    (∀ k : String, handle_scrape_result (Except.error (ScrapeErr.keyErr k)) =
        FallbackOutcome.descriptiveError fallback_msg) ∧
    strContains fallback_msg "seasons" = true ∧
    strContains fallback_msg "\x27seasons\x27 key" = true ∧
    strContains fallback_msg "API" = true ∧
    strContains fallback_msg "tackles_joined.csv" = true := by
  exact ⟨fun k => rfl, by decide, by decide, by decide, by decide⟩

/-- The two-row input refuting C1: row A has 10 goals in 0 minutes, row B has
5 goals in 90 minutes. -/
def c1df : Table :=
  ⟨["player", "team", "goals", "minutesPlayed"],
   [[("player", .str "A"), ("team", .str "T"),
     ("goals", .num (mkRat 10 1)), ("minutesPlayed", .num (mkRat 0 1))],
    [("player", .str "B"), ("team", .str "T"),
     ("goals", .num (mkRat 5 1)), ("minutesPlayed", .num (mkRat 90 1))]]⟩

/-- C1 counterexample: on c1df with per-90 requested and descending sort, the
zero-minutes row A gets the defined ranking value +infinity (not a missing
value) and is placed first, before the row with the defined finite value --
the claim says such a row gets a missing value and is placed after all rows
with defined ranking values.  The built display table likewise shows row A at
rank 1 with the non-empty formatted value "inf". -/
theorem claim1_counterexample :
    (rankedTable c1df "goals" true 0 false).map
        (fun p => p.1.rows.map fun r => (colVal r "player", colVal r "goals_per90")) =
      some [(Val.str "A", Val.pinf), (Val.str "B", Val.num (mkRat 5 1))] ∧
    (build_top_table c1df "goals" true 0 false none).map
        (fun t => t.rows.map fun r => (colVal r "player", colVal r "Goals")) =
      some [(Val.str "A", Val.str "inf"), (Val.str "B", Val.str "5")] ∧
    colVal c1df.rows.headI "minutesPlayed" = Val.num (mkRat 0 1) := by
  refine ⟨by decide, by decide, by decide⟩

/-- C1 (amended): in per-90 normalization, a row whose minutesPlayed is
missing gets a missing ranking value (no exception), and missing ranking
values sort last regardless of direction; but a row whose minutesPlayed is
zero and whose metric is positive gets the defined value +infinity, which
sorts as the largest defined value (first, not last, when descending).  The
sort places all rows with a missing key after all rows with a defined key and
orders the defined ones by the key in the requested direction. -/
theorem claim1_amended :
    (∀ (r : Row) (metric : String),
        colVal r "minutesPlayed" = Val.na → per90val r metric = Val.na) ∧
    (∀ (r : Row) (metric : String) (q : Rat),
        colVal r "minutesPlayed" = Val.num (mkRat 0 1) →
        colVal r metric = Val.num q → 0 < q.num → per90val r metric = Val.pinf) ∧
    (∀ (t : Table) (c : String) (asc : Bool), ∃ ds ns : List Row,
        (sortValues t c asc).rows = ds ++ ns ∧
        (∀ r ∈ ds, colVal r c ≠ Val.na) ∧
        (∀ r ∈ ns, colVal r c = Val.na) ∧
        ds.Pairwise (fun r s =>
          (if asc then valLeB (colVal r c) (colVal s c)
           else valLeB (colVal s c) (colVal r c)) = true)) := by
  refine ⟨?_, ?_, ?_⟩
  · intro r metric h
    rw [per90val, h]
    cases colVal r metric <;> rfl
  · intro r metric q h1 h2 hq
    rw [per90val, h1, h2]
    have hz : valDiv (Val.num (mkRat 0 1)) (Val.num (mkRat 90 1)) = Val.num (mkRat 0 1) := by
      decide
    rw [hz]
    simp [valDiv, hq, hq.ne']
  · intro t c asc
    refine ⟨_, _, rfl, ?_, ?_, ?_⟩
    · intro r hr
      have hr' := (mem_sortOrd _ r _).mp hr
      have := List.of_mem_filter hr'
      simpa using this
    · intro r hr
      have := List.of_mem_filter hr
      simpa using this
    · refine pairwise_sortOrd _ ?_ ?_ _
      · intro x y z hxy hyz
        cases asc <;> simp only [Bool.false_eq_true, if_false, if_true] at hxy hyz ⊢
        · exact valLeB_trans _ _ _ hyz hxy
        · exact valLeB_trans _ _ _ hxy hyz
      · intro x y
        cases asc <;> simp only [Bool.false_eq_true, if_false, if_true]
        · exact valLeB_total _ _
        · exact valLeB_total _ _

theorem claim1_amended_witness :
    per90val [("minutesPlayed", Val.na), ("goals", Val.num (mkRat 3 1))] "goals" = Val.na ∧
    per90val [("minutesPlayed", Val.num (mkRat 0 1)), ("goals", Val.num (mkRat 3 1))] "goals" =
      Val.pinf ∧
    (∃ ds ns : List Row,
      (sortValues c1df "goals" false).rows = ds ++ ns ∧
      (∀ r ∈ ds, colVal r "goals" ≠ Val.na) ∧
      (∀ r ∈ ns, colVal r "goals" = Val.na) ∧
      ds.Pairwise (fun r s =>
        (if false then valLeB (colVal r "goals") (colVal s "goals")
         else valLeB (colVal s "goals") (colVal r "goals")) = true)) :=
  ⟨claim1_amended.1 _ "goals" (by decide),
   claim1_amended.2.1 _ "goals" (mkRat 3 1) (by decide) (by decide) (by decide),
   claim1_amended.2.2 c1df "goals" false⟩

theorem colVal_map_overwrite_ne (c c' : String) (v : Val) (h : c' ≠ c) :
    ∀ r : Row, colVal (r.map fun p => if p.1 = c then (c, v) else p) c' = colVal r c'
  | [] => rfl
  | (k, w) :: r => by
      rw [List.map_cons, colVal]
      by_cases hk : k = c
      · subst hk
        simp only [if_pos rfl]
        rw [colVal, if_neg (fun e => h e.symm), if_neg (fun e => h e.symm)]
        exact colVal_map_overwrite_ne k c' v h r
      · simp only [hk, ite_false]
        rw [colVal]
        by_cases hkc : k = c'
        · rw [if_pos hkc, if_pos hkc]
        · rw [if_neg hkc, if_neg hkc]
          exact colVal_map_overwrite_ne c c' v h r

theorem colVal_append_single_ne (c c' : String) (v : Val) (h : c' ≠ c) :
    ∀ r : Row, colVal (r ++ [(c, v)]) c' = colVal r c'
  | [] => by
      rw [List.nil_append, colVal, colVal, if_neg (fun e => h e.symm)]
      rfl
  | (k, w) :: r => by
      rw [List.cons_append, colVal, colVal]
      by_cases hkc : k = c'
      · rw [if_pos hkc, if_pos hkc]
      · rw [if_neg hkc, if_neg hkc]
        exact colVal_append_single_ne c c' v h r

theorem colVal_rowSet_ne (r : Row) (c c' : String) (v : Val) (h : c' ≠ c) :
    colVal (rowSet r c v) c' = colVal r c' := by
  rw [rowSet]
  by_cases hm : c ∈ r.map Prod.fst
  · rw [if_pos hm]
    exact colVal_map_overwrite_ne c c' v h r
  · rw [if_neg hm]
    exact colVal_append_single_ne c c' v h r

theorem colVal_renRow_ne (r : Row) (old new c : String) (h1 : c ≠ old) (h2 : c ≠ new) :
    colVal (renRow old new r) c = colVal r c := by
  induction r with
  | nil => rfl
  | cons p r ih =>
      cases p with
      | mk k w =>
          rw [renRow, List.map_cons]
          rw [colVal, colVal]
          by_cases hk : k = c
          · rw [if_pos hk]
            have : renameStr old new k = c := by
              rw [renameStr, hk, if_neg h1]
            simp only [this, if_pos]
          · rw [if_neg hk]
            by_cases hko : k = old
            · have : renameStr old new k = new := by rw [renameStr, if_pos hko]
              rw [this, if_neg (fun e => h2 e.symm)]
              exact ih
            · have : renameStr old new k = k := by rw [renameStr, if_neg hko]
              rw [this, if_neg hk]
              exact ih

theorem colVal_renRow_to (r : Row) (old new : String) (hnew : new ∉ r.map Prod.fst) :
    colVal (renRow old new r) new = colVal r old := by
  induction r with
  | nil => rfl
  | cons p r ih =>
      cases p with
      | mk k w =>
          have hk2 : k ≠ new := by
            intro e
            exact hnew (by simp [e])
          have hnew' : new ∉ r.map Prod.fst := by
            intro e
            exact hnew (by simp [e])
          rw [renRow, List.map_cons]
          rw [colVal, colVal]
          by_cases hko : k = old
          · have : renameStr old new k = new := by rw [renameStr, if_pos hko]
            rw [this, if_pos rfl, if_pos hko]
          · have : renameStr old new k = k := by rw [renameStr, if_neg hko]
            rw [this, if_neg hk2, if_neg hko]
            exact ih hnew'

theorem colVal_mapped (cs : List String) (r : Row) (c : String) (hc : c ∈ cs) :
    colVal (cs.map fun c' => (c', colVal r c')) c = colVal r c := by
  induction cs with
  | nil => cases hc
  | cons a cs ih =>
      rw [List.map_cons, colVal]
      by_cases h : a = c
      · rw [if_pos h, h]
      · rw [if_neg h]
        exact ih (by rcases List.mem_cons.mp hc with e | e; exact absurd e.symm h; exact e)

theorem length_filter_not_add {α : Type} (l : List α) (p : α → Bool) :
    (l.filter fun x => !p x).length + (l.filter p).length = l.length := by
  induction l with
  | nil => rfl
  | cons a l ih => by_cases h : p a <;> simp [List.filter, h] <;> omega

theorem sortValues_rows_length (t : Table) (c : String) (asc : Bool) :
    (sortValues t c asc).rows.length = t.rows.length := by
  simp only [sortValues, List.length_append, length_sortOrd]
  exact length_filter_not_add t.rows _

theorem mem_of_mem_sortValues {r : Row} {t : Table} {c : String} {asc : Bool}
    (h : r ∈ (sortValues t c asc).rows) : r ∈ t.rows := by
  rcases List.mem_append.mp h with h | h
  · exact List.mem_of_mem_filter ((mem_sortOrd _ r _).mp h)
  · exact List.mem_of_mem_filter h

theorem per90col_ne (m s : String) (h : s.data.getLast? ≠ some '0') : per90col m ≠ s := by
  intro e
  apply h
  have h2 : (m.data ++ "_per90".data).getLast? = s.data.getLast? := by
    rw [← String.data_append]
    exact congrArg List.getLast? (congrArg String.data e)
  rw [List.getLast?_append] at h2
  rw [← h2]
  rfl

theorem minutesFiltered_cols (df : Table) (mm : Int) : (minutesFiltered df mm).cols = df.cols := by
  rw [minutesFiltered]
  by_cases h : "minutesPlayed" ∈ df.cols ∧ 0 < mm
  · rw [if_pos h]
  · rw [if_neg h]

theorem map_renameStr_of_not_mem {l : List String} {old new : String} (h : old ∉ l) :
    l.map (renameStr old new) = l := by
  have he : ∀ c ∈ l, renameStr old new c = c := by
    intro c hc
    have hne : c ≠ old := fun e => h (e ▸ hc)
    rw [renameStr, if_neg hne]
  calc l.map (renameStr old new) = l.map id := List.map_congr_left he
    _ = l := List.map_id l

theorem condRename_cols (t : Table) (old new : String) :
    (condRename t old new).cols = t.cols.map (renameStr old new) := by
  rw [condRename]
  by_cases h : old ∈ t.cols
  · rw [if_pos h]
    rfl
  · rw [if_neg h, map_renameStr_of_not_mem h]

theorem renameAgeCountry_cols (t : Table) :
    (renameAgeCountry t).cols = t.cols.map relabelCol := by
  rw [renameAgeCountry, condRename_cols, condRename_cols, condRename_cols, condRename_cols]
  simp only [List.map_map]
  rfl

theorem selectCols_some (t : Table) (cs : List String) (h : ∀ c ∈ cs, c ∈ t.cols) :
    selectCols t cs = some ⟨cs, t.rows.map fun r => cs.map fun c => (c, colVal r c)⟩ := by
  rw [selectCols, if_pos]
  exact List.all_eq_true.mpr fun c hc => decide_eq_true (h c hc)

theorem selectCols_none (t : Table) (cs : List String) (e : String) (he : e ∈ cs)
    (h : e ∉ t.cols) : selectCols t cs = none := by
  rw [selectCols, if_neg]
  intro hall
  exact h (of_decide_eq_true (List.all_eq_true.mp hall e he))

theorem addCol_cols_mem (t : Table) (c : String) (f : Row → Val) (x : String)
    (h : x ∈ t.cols) : x ∈ (t.addCol c f).cols := by
  rw [Table.addCol]
  by_cases hc : c ∈ t.cols
  · rw [if_pos hc]
    exact h
  · rw [if_neg hc]
    exact List.mem_append.mpr (Or.inl h)

theorem addCol_cols_self (t : Table) (c : String) (f : Row → Val) : c ∈ (t.addCol c f).cols := by
  rw [Table.addCol]
  by_cases hc : c ∈ t.cols
  · rw [if_pos hc]
    exact hc
  · rw [if_neg hc]
    exact List.mem_append.mpr (Or.inr (List.mem_singleton.mpr rfl))

theorem addCol_cols_upper (t : Table) (c : String) (f : Row → Val) (x : String)
    (h : x ∈ (t.addCol c f).cols) : x ∈ t.cols ∨ x = c := by
  rw [Table.addCol] at h
  by_cases hc : c ∈ t.cols
  · rw [if_pos hc] at h
    exact Or.inl h
  · rw [if_neg hc] at h
    rcases List.mem_append.mp h with h | h
    · exact Or.inl h
    · exact Or.inr (List.mem_singleton.mp h)

theorem resolve_age_col_mem {cols : List String} {c : String}
    (h : resolve_age_col cols = some c) :
    c ∈ cols ∧ (c = "age" ∨ c = "age_x" ∨ c = "age_y") := by
  rw [resolve_age_col] at h
  by_cases h1 : "age" ∈ cols
  · rw [if_pos h1] at h
    cases h
    exact ⟨h1, Or.inl rfl⟩
  · rw [if_neg h1] at h
    by_cases h2 : "age_x" ∈ cols
    · rw [if_pos h2] at h
      cases h
      exact ⟨h2, Or.inr (Or.inl rfl)⟩
    · rw [if_neg h2] at h
      by_cases h3 : "age_y" ∈ cols
      · rw [if_pos h3] at h
        cases h
        exact ⟨h3, Or.inr (Or.inr rfl)⟩
      · rw [if_neg h3] at h
        cases h

theorem ensureCol_exists_g (t : Table) (cname : String) :
    ∃ g : Row → Row, (ensureCol t cname).rows = t.rows.map g ∧
      (∀ r x, x ≠ cname → colVal (g r) x = colVal r x) ∧
      (∀ x, x ∈ t.cols → x ∈ (ensureCol t cname).cols) ∧ cname ∈ (ensureCol t cname).cols := by
  rw [ensureCol]
  by_cases h : cname ∈ t.cols
  · rw [if_pos h]
    exact ⟨id, (List.map_id t.rows).symm, fun r x _ => rfl, fun x hx => hx, h⟩
  · rw [if_neg h]
    refine ⟨fun r => rowSet r cname Val.na, rfl, ?_, ?_, ?_⟩
    · intro r x hx
      exact colVal_rowSet_ne r cname x Val.na hx
    · intro x hx
      exact addCol_cols_mem t cname _ x hx
    · exact addCol_cols_self t cname _

/-- The ranking column that build_top_table sorts by: the derived per-90
column when per-90 is requested and a minutes column exists, else the metric
itself. -/
def rankingCol (df : Table) (metric : String) (per_90 : Bool) : String :=
  if per_90 ∧ "minutesPlayed" ∈ df.cols then per90col metric else metric

theorem condRename_rows_length (t : Table) (old new : String) :
    (condRename t old new).rows.length = t.rows.length := by
  rw [condRename]
  by_cases h : old ∈ t.cols
  · rw [if_pos h]
    exact List.length_map t.rows _
  · rw [if_neg h]

theorem renameAgeCountry_rows_length (t : Table) :
    (renameAgeCountry t).rows.length = t.rows.length := by
  rw [renameAgeCountry, condRename_rows_length, condRename_rows_length,
    condRename_rows_length, condRename_rows_length]

theorem insertRk_rows_length (t : Table) : (insertRk t).rows.length = t.rows.length := by
  simp [insertRk]

theorem minutesFiltered_rows_pos (df : Table) (mm : Int) (h1 : "minutesPlayed" ∈ df.cols)
    (h2 : 0 < mm) :
    (minutesFiltered df mm).rows =
      df.rows.filter fun r => valGeNum (colVal r "minutesPlayed") (mkRat mm 1) := by
  rw [minutesFiltered, if_pos ⟨h1, h2⟩]

theorem per90Step_shape (t : Table) (metric : String) (per_90 : Bool) (W : Table) (mc : String)
    (h : per90Step t metric per_90 = some (W, mc)) :
    W.rows.length = t.rows.length ∧
    (∀ x ∈ t.cols, x ∈ W.cols) ∧
    (∀ r ∈ W.rows, ∃ r' ∈ t.rows,
      ∀ x : String, x ≠ per90col metric → colVal r x = colVal r' x) := by
  rw [per90Step] at h
  by_cases h90 : per_90 ∧ "minutesPlayed" ∈ t.cols
  · rw [if_pos h90] at h
    by_cases hm : metric ∈ t.cols
    · rw [if_pos hm] at h
      simp only [Option.some.injEq, Prod.mk.injEq] at h
      obtain ⟨hW, hmc⟩ := h
      subst hW
      refine ⟨List.length_map t.rows _, fun x hx => addCol_cols_mem t _ _ x hx, ?_⟩
      intro r hr
      obtain ⟨r', hr', hEq⟩ := List.mem_map.mp hr
      exact ⟨r', hr', fun x hx => hEq ▸ colVal_rowSet_ne r' (per90col metric) x _ hx⟩
    · rw [if_neg hm] at h
      cases h
  · rw [if_neg h90] at h
    simp only [Option.some.injEq, Prod.mk.injEq] at h
    obtain ⟨hW, hmc⟩ := h
    subst hW
    exact ⟨rfl, fun x hx => hx, fun r hr => ⟨r, hr, fun x _ => rfl⟩⟩

theorem rankedTable_shape (df : Table) (metric : String) (per_90 : Bool) (mm : Int)
    (asc : Bool) (top : Table) (mcol : String)
    (h : rankedTable df metric per_90 mm asc = some (top, mcol)) :
    top.rows.length = min 10 (qualifyingRows df mm).length ∧
    (∀ r ∈ top.rows, ∃ r' ∈ qualifyingRows df mm,
      ∀ x : String, x ≠ per90col metric → colVal r x = colVal r' x) := by
  rw [rankedTable] at h
  cases hps : per90Step (minutesFiltered df mm) metric per_90 with
  | none =>
      rw [hps] at h
      exact absurd h (by intro h2; exact Option.noConfusion h2)
  | some pr =>
      rw [hps] at h
      obtain ⟨W, mc⟩ := pr
      obtain ⟨hlen, _, hprov⟩ := per90Step_shape _ _ _ _ _ hps
      have h2 : (if mc ∈ W.cols then
          some ((⟨W.cols, (sortValues W mc asc).rows.take 10⟩ : Table), mc) else none) =
          some (top, mcol) := h
      by_cases hin : mc ∈ W.cols
      · rw [if_pos hin] at h2
        simp only [Option.some.injEq, Prod.mk.injEq] at h2
        obtain ⟨hT, hmc⟩ := h2
        subst hT
        constructor
        · simp only [List.length_take, sortValues_rows_length, hlen]
          rfl
        · intro r hr
          have h1 : r ∈ (sortValues W mc asc).rows := (List.take_sublist 10 _).subset hr
          exact hprov r (mem_of_mem_sortValues h1)
      · rw [if_neg hin] at h2
        cases h2

theorem formatCells_cols (t : Table) : (formatCells t).cols = t.cols := rfl

theorem renameTable_cols (t : Table) (old new : String) :
    (renameTable t old new).cols = t.cols.map (renameStr old new) := rfl

theorem insertRk_cols (t : Table) : (insertRk t).cols = "Rk" :: t.cols := rfl

theorem formatCells_rows_length (t : Table) : (formatCells t).rows.length = t.rows.length := by
  simp [formatCells]

theorem selectCols_inv {t : Table} {cs : List String} {d : Table}
    (h : selectCols t cs = some d) :
    d = ⟨cs, t.rows.map fun r => cs.map fun c => (c, colVal r c)⟩ := by
  rw [selectCols] at h
  by_cases hc : cs.all (fun c => decide (c ∈ t.cols)) = true
  · rw [if_pos hc] at h
    exact (Option.some.inj h).symm
  · rw [if_neg hc] at h
    cases h

theorem rankedTable_success (df : Table) (metric : String) (per_90 : Bool) (mm : Int)
    (asc : Bool) (hm : metric ∈ df.cols) :
    ∃ top, rankedTable df metric per_90 mm asc = some (top, rankingCol df metric per_90) ∧
      (∀ x ∈ df.cols, x ∈ top.cols) ∧ rankingCol df metric per_90 ∈ top.cols ∧
      (∀ x ∈ top.cols, x ∈ df.cols ∨ x = per90col metric) := by
  have hwc : (minutesFiltered df mm).cols = df.cols := minutesFiltered_cols df mm
  by_cases h90 : per_90 ∧ "minutesPlayed" ∈ (minutesFiltered df mm).cols
  · have hm' : metric ∈ (minutesFiltered df mm).cols := hwc ▸ hm
    have hps : per90Step (minutesFiltered df mm) metric per_90 =
        some ((minutesFiltered df mm).addCol (per90col metric) (fun r => per90val r metric),
          per90col metric) := by
      rw [per90Step, if_pos h90, if_pos hm']
    have hrk : rankingCol df metric per_90 = per90col metric := by
      rw [rankingCol, if_pos ⟨h90.1, hwc ▸ h90.2⟩]
    have hin : per90col metric ∈
        ((minutesFiltered df mm).addCol (per90col metric) (fun r => per90val r metric)).cols :=
      addCol_cols_self _ _ _
    have h2 : rankedTable df metric per_90 mm asc =
        (if per90col metric ∈
            ((minutesFiltered df mm).addCol (per90col metric)
              (fun r => per90val r metric)).cols then
          some ((⟨((minutesFiltered df mm).addCol (per90col metric)
                (fun r => per90val r metric)).cols,
              (sortValues ((minutesFiltered df mm).addCol (per90col metric)
                (fun r => per90val r metric)) (per90col metric) asc).rows.take 10⟩ : Table),
            per90col metric)
        else none) := by
      rw [rankedTable, hps]
    rw [if_pos hin] at h2
    refine ⟨_, by rw [h2, hrk], ?_, ?_, ?_⟩
    · intro x hx
      show x ∈ ((minutesFiltered df mm).addCol (per90col metric)
        (fun r => per90val r metric)).cols
      exact addCol_cols_mem _ _ _ x (hwc ▸ hx)
    · rw [hrk]
      exact hin
    · intro x hx
      have hx2 : x ∈ ((minutesFiltered df mm).addCol (per90col metric)
          (fun r => per90val r metric)).cols := hx
      rcases addCol_cols_upper _ _ _ x hx2 with h | h
      · exact Or.inl (hwc ▸ h)
      · exact Or.inr h
  · have hps : per90Step (minutesFiltered df mm) metric per_90 =
        some (minutesFiltered df mm, metric) := by
      rw [per90Step, if_neg h90]
    have hrk : rankingCol df metric per_90 = metric := by
      rw [rankingCol, if_neg]
      intro hcon
      exact h90 ⟨hcon.1, hwc ▸ hcon.2⟩
    have h2 : rankedTable df metric per_90 mm asc =
        (if metric ∈ (minutesFiltered df mm).cols then
          some ((⟨(minutesFiltered df mm).cols,
              (sortValues (minutesFiltered df mm) metric asc).rows.take 10⟩ : Table), metric)
        else none) := by
      rw [rankedTable, hps]
    rw [if_pos (hwc ▸ hm)] at h2
    refine ⟨_, by rw [h2, hrk], ?_, ?_, ?_⟩
    · intro x hx
      show x ∈ (minutesFiltered df mm).cols
      exact hwc ▸ hx
    · rw [hrk]
      show metric ∈ (minutesFiltered df mm).cols
      exact hwc ▸ hm
    · intro x hx
      have hx2 : x ∈ (minutesFiltered df mm).cols := hx
      exact Or.inl (hwc ▸ hx2)

theorem build_top_table_success (df : Table) (metric : String) (per_90 : Bool) (mm : Int)
    (asc : Bool) (extras : List String)
    (hp : "player" ∈ df.cols) (ht : "team" ∈ df.cols) (hm : metric ∈ df.cols)
    (hex : ∀ e ∈ extras, e ∈ df.cols) :
    ∃ disp, build_top_table df metric per_90 mm asc (some extras) = some disp ∧
      disp.cols = (("Rk" :: ["player", "team", rankingCol df metric per_90] ++ extras).map
          (renameStr (rankingCol df metric per_90) (prettyName metric))).map relabelCol := by
  obtain ⟨top, hrt, hsub, hin, _⟩ := rankedTable_success df metric per_90 mm asc hm
  have hall : ∀ c ∈ ["player", "team", rankingCol df metric per_90] ++ extras, c ∈ top.cols := by
    intro c hc
    rcases List.mem_append.mp hc with hc | hc
    · simp only [List.mem_cons, List.mem_singleton] at hc
      rcases hc with rfl | rfl | rfl | hc
      · exact hsub _ hp
      · exact hsub _ ht
      · exact hin
      · cases hc
    · exact hsub c (hex c hc)
  have hsel := selectCols_some top (["player", "team", rankingCol df metric per_90] ++ extras) hall
  have hb1 : build_top_table df metric per_90 mm asc (some extras) =
      (match selectCols top (["player", "team", rankingCol df metric per_90] ++ extras) with
       | none => none
       | some d =>
          some (formatCells (renameAgeCountry (renameTable (insertRk d)
            (rankingCol df metric per_90) (prettyName metric))))) := by
    rw [build_top_table, hrt]
    rfl
  rw [hsel] at hb1
  have hb2 : build_top_table df metric per_90 mm asc (some extras) =
      some (formatCells (renameAgeCountry (renameTable (insertRk
        ⟨["player", "team", rankingCol df metric per_90] ++ extras,
         top.rows.map fun r => (["player", "team", rankingCol df metric per_90] ++ extras).map
           fun c => (c, colVal r c)⟩)
        (rankingCol df metric per_90) (prettyName metric)))) := hb1
  refine ⟨_, hb2, ?_⟩
  rw [formatCells_cols, renameAgeCountry_cols, renameTable_cols, insertRk_cols]
  rfl

theorem build_top_table_rows_length (df : Table) (metric : String) (per_90 : Bool) (mm : Int)
    (asc : Bool) (ex : Option (List String)) (disp : Table)
    (h : build_top_table df metric per_90 mm asc ex = some disp) :
    disp.rows.length = min 10 (qualifyingRows df mm).length := by
  rw [build_top_table] at h
  cases hrt : rankedTable df metric per_90 mm asc with
  | none =>
      rw [hrt] at h
      exact absurd h (by intro h2; exact Option.noConfusion h2)
  | some pr =>
      rw [hrt] at h
      obtain ⟨top, mcol⟩ := pr
      obtain ⟨hlen, _⟩ := rankedTable_shape df metric per_90 mm asc top mcol hrt
      have h2 : (match selectCols top (["player", "team", mcol] ++ ex.getD []) with
          | none => none
          | some d =>
             some (formatCells (renameAgeCountry (renameTable (insertRk d) mcol
               (prettyName metric))))) = some disp := h
      cases hsel : selectCols top (["player", "team", mcol] ++ ex.getD []) with
      | none =>
          rw [hsel] at h2
          exact absurd h2 (by intro h3; exact Option.noConfusion h3)
      | some d =>
          rw [hsel] at h2
          have h3 : formatCells (renameAgeCountry (renameTable (insertRk d) mcol
              (prettyName metric))) = disp := Option.some.inj h2
          have hd := selectCols_inv hsel
          subst hd
          rw [← h3, formatCells_rows_length, renameAgeCountry_rows_length]
          have hrl : (renameTable (insertRk ⟨["player", "team", mcol] ++ ex.getD [],
              top.rows.map fun r => (["player", "team", mcol] ++ ex.getD []).map
                fun c => (c, colVal r c)⟩) mcol (prettyName metric)).rows.length =
              (insertRk ⟨["player", "team", mcol] ++ ex.getD [],
              top.rows.map fun r => (["player", "team", mcol] ++ ex.getD []).map
                fun c => (c, colVal r c)⟩).rows.length := List.length_map _ _
          rw [hrl, insertRk_rows_length]
          simp only [List.length_map]
          exact hlen

/-- The one-row input refuting C3: the table has no age column, yet age is
requested as an extra display column. -/
def c3df : Table :=
  ⟨["player", "team", "goals"],
   [[("player", .str "A"), ("team", .str "T"), ("goals", .num (mkRat 1 1))]]⟩

/-- C3 counterexample: requesting the absent extra column age makes the call
fail (the pandas column selection raises KeyError, modelled as none) instead
of succeeding with that column omitted, as the claim states. -/
theorem claim3_counterexample :
    build_top_table c3df "goals" false 0 false (some ["age"]) = none := by decide

/-- C3 (amended): a requested extra column that is absent from the table is
not skipped: the builder fails on it (KeyError from the column selection).
When every requested extra column is present, the call succeeds, and the
output column order is rank, player, team, ranking column, then the extra
columns in the order given (labels passed through the display renaming
maps). -/
theorem claim3_amended (df : Table) (metric : String) (per_90 : Bool) (mm : Int) (asc : Bool)
    (extrasBad extras : List String) (e : String)
    (hp : "player" ∈ df.cols) (ht : "team" ∈ df.cols) (hm : metric ∈ df.cols)
    (heBad : e ∈ extrasBad) (he1 : e ∉ df.cols) (he2 : e ≠ per90col metric)
    (hex : ∀ x ∈ extras, x ∈ df.cols) :
    build_top_table df metric per_90 mm asc (some extrasBad) = none ∧
    ∃ disp, build_top_table df metric per_90 mm asc (some extras) = some disp ∧
      disp.cols = (("Rk" :: ["player", "team", rankingCol df metric per_90] ++ extras).map
          (renameStr (rankingCol df metric per_90) (prettyName metric))).map relabelCol := by
  constructor
  · obtain ⟨top, hrt, hsub, hin, hup⟩ := rankedTable_success df metric per_90 mm asc hm
    have hnotin : e ∉ top.cols := by
      intro h3
      rcases hup e h3 with h4 | h4
      · exact he1 h4
      · exact he2 h4
    have hsel := selectCols_none top (["player", "team", rankingCol df metric per_90] ++ extrasBad)
      e (List.mem_append.mpr (Or.inr heBad)) hnotin
    have hb1 : build_top_table df metric per_90 mm asc (some extrasBad) =
        (match selectCols top (["player", "team", rankingCol df metric per_90] ++ extrasBad) with
         | none => none
         | some d =>
            some (formatCells (renameAgeCountry (renameTable (insertRk d)
              (rankingCol df metric per_90) (prettyName metric))))) := by
      rw [build_top_table, hrt]
      rfl
    rw [hsel] at hb1
    exact hb1
  · exact build_top_table_success df metric per_90 mm asc extras hp ht hm hex

/-- A concrete input for the C3 witness. -/
def c3wdf : Table :=
  ⟨["player", "team", "goals", "age"],
   [[("player", .str "A"), ("team", .str "T"),
     ("goals", .num (mkRat 1 1)), ("age", .num (mkRat 20 1))]]⟩

theorem claim3_amended_witness :
    build_top_table c3wdf "goals" false 0 false (some ["age", "height"]) = none ∧
    ∃ disp, build_top_table c3wdf "goals" false 0 false (some ["age"]) = some disp ∧
      disp.cols = (("Rk" :: ["player", "team", rankingCol c3wdf "goals" false] ++ ["age"]).map
          (renameStr (rankingCol c3wdf "goals" false) (prettyName "goals"))).map relabelCol :=
  claim3_amended c3wdf "goals" false 0 false ["age", "height"] ["age"] "height"
    (by decide) (by decide) (by decide) (by decide) (by decide) (by decide) (by decide)

/-- The 12-row input for the C5 witness. -/
def c5df : Table :=
  ⟨["player", "team", "goals"],
   (List.range 12).map fun i =>
     [("player", .str (toString i)), ("team", .str "T"), ("goals", .num (mkRat (i : Int) 1))]⟩

/-- C5: whenever the Leaderboard Builder returns a display table, that table
has exactly 10 rows when at least 10 rows qualify after the minutes filter,
and exactly k rows when k < 10 rows qualify. -/
theorem claim5_leaderboard_size (df : Table) (metric : String) (per_90 : Bool) (mm : Int)
    (asc : Bool) (ex : Option (List String)) (disp : Table)
    (h : build_top_table df metric per_90 mm asc ex = some disp) :
    (10 ≤ (qualifyingRows df mm).length → disp.rows.length = 10) ∧
    ((qualifyingRows df mm).length < 10 → disp.rows.length = (qualifyingRows df mm).length) := by
  have hl := build_top_table_rows_length df metric per_90 mm asc ex disp h
  omega

theorem claim5_witness :
    (build_top_table c5df "goals" false 0 false none).elim False
      (fun disp => disp.rows.length = 10) := by
  cases hb : build_top_table c5df "goals" false 0 false none with
  | none => exact absurd hb (by decide)
  | some disp =>
      exact (claim5_leaderboard_size c5df "goals" false 0 false none disp hb).1 (by decide)

/-- C6: when the table has a minutesPlayed column and the threshold is
positive, every row surviving to the ranked top-10 stage (whose projections
are exactly the output display rows) has a defined minutesPlayed value of at
least the threshold; in particular no row with minutesPlayed below the
threshold reaches the output. -/
theorem claim6_minutes_filter (df : Table) (metric : String) (per_90 : Bool) (mm : Int)
    (asc : Bool) (top : Table) (mcol : String)
    (hcol : "minutesPlayed" ∈ df.cols) (hmm : 0 < mm)
    (h : rankedTable df metric per_90 mm asc = some (top, mcol)) :
    ∀ r ∈ top.rows, ∀ q : Rat, colVal r "minutesPlayed" = Val.num q → mkRat mm 1 ≤ q := by
  obtain ⟨_, hprov⟩ := rankedTable_shape df metric per_90 mm asc top mcol h
  intro r hr q hq
  obtain ⟨r', hr', heq⟩ := hprov r hr
  have hv := heq "minutesPlayed" (Ne.symm (per90col_ne metric "minutesPlayed" (by decide)))
  rw [qualifyingRows, minutesFiltered_rows_pos df mm hcol hmm] at hr'
  have hp := List.of_mem_filter hr'
  rw [← hv, hq] at hp
  simpa [valGeNum] using hp

/-- The input for the C6 witness: one row below the threshold, two above. -/
def c6df : Table :=
  ⟨["player", "team", "goals", "minutesPlayed"],
   [[("player", .str "A"), ("team", .str "T"),
     ("goals", .num (mkRat 4 1)), ("minutesPlayed", .num (mkRat 100 1))],
    [("player", .str "B"), ("team", .str "T"),
     ("goals", .num (mkRat 2 1)), ("minutesPlayed", .num (mkRat 900 1))],
    [("player", .str "C"), ("team", .str "T"),
     ("goals", .num (mkRat 1 1)), ("minutesPlayed", .num (mkRat 450 1))]]⟩

theorem claim6_witness :
    (rankedTable c6df "goals" false 300 false).elim False
      (fun pr => ∀ r ∈ pr.1.rows, ∀ q : Rat,
        colVal r "minutesPlayed" = Val.num q → mkRat 300 1 ≤ q) := by
  cases hb : rankedTable c6df "goals" false 300 false with
  | none => exact absurd hb (by decide)
  | some pr =>
      obtain ⟨top, mcol⟩ := pr
      exact claim6_minutes_filter c6df "goals" false 300 false top mcol
        (by decide) (by decide) hb

/-- Whether a cell holds a finite numeric value. -/
def valIsNum : Val → Bool
  | .num _ => true
  | _ => false

theorem ageFiltered_cols (df : Table) (ac : Option String) (mn mx : Option Int) :
    (ageFiltered df ac mn mx).cols = df.cols := by
  cases ac with
  | none => rfl
  | some c =>
      cases mn with
      | none =>
          cases mx with
          | none => rfl
          | some b => rfl
      | some a =>
          cases mx with
          | none => rfl
          | some b => rfl

theorem ageFiltered_none (df : Table) (ac : Option String) :
    ageFiltered df ac none none = df := by
  cases ac with
  | none => rfl
  | some c => rfl

theorem ageFiltered_rows_sub (df : Table) (ac : Option String) (mn mx : Option Int) (r : Row)
    (h : r ∈ (ageFiltered df ac mn mx).rows) : r ∈ df.rows := by
  cases ac with
  | none => exact h
  | some c =>
      cases mn with
      | none =>
          cases mx with
          | none => exact h
          | some b => exact List.mem_of_mem_filter h
      | some a =>
          cases mx with
          | none => exact List.mem_of_mem_filter h
          | some b => exact List.mem_of_mem_filter (List.mem_of_mem_filter h)

theorem dropnaTackles_inv {t : Table} {d : Table} (h : dropnaTackles t = some d) :
    "tackles" ∈ t.cols ∧
    d = ⟨t.cols, t.rows.filter fun r => !decide (colVal r "tackles" = Val.na)⟩ := by
  rw [dropnaTackles] at h
  by_cases hc : "tackles" ∈ t.cols
  · rw [if_pos hc] at h
    exact ⟨hc, (Option.some.inj h).symm⟩
  · rw [if_neg hc] at h
    cases h

theorem renameTable_cols_mem (t : Table) (old new x : String) (hx : x ∈ t.cols)
    (hne : x ≠ old) : x ∈ (renameTable t old new).cols := by
  rw [renameTable_cols]
  exact List.mem_map.mpr ⟨x, hx, by rw [renameStr, if_neg hne]⟩

theorem renameTable_cols_new (t : Table) (old new : String) (hold : old ∈ t.cols) :
    new ∈ (renameTable t old new).cols := by
  rw [renameTable_cols]
  exact List.mem_map.mpr ⟨old, hold, by rw [renameStr, if_pos rfl]⟩

/-- The rows that survive the extractor pipeline up to the top-n truncation:
age filter, drop of rows missing tackles, descending sort, take top n. -/
def tacklersPre (df : Table) (top_n : Nat) (min_age max_age : Option Int) : List Row :=
  (sortValues (⟨(ageFiltered df (resolve_age_col df.cols) min_age max_age).cols,
      (ageFiltered df (resolve_age_col df.cols) min_age max_age).rows.filter
        fun r => !decide (colVal r "tackles" = Val.na)⟩ : Table)
    "tackles" false).rows.take top_n

theorem mem_tacklersPre (df : Table) (top_n : Nat) (mn mx : Option Int) (r : Row)
    (h : r ∈ tacklersPre df top_n mn mx) :
    r ∈ (ageFiltered df (resolve_age_col df.cols) mn mx).rows ∧
      colVal r "tackles" ≠ Val.na := by
  have h1 := mem_of_mem_sortValues ((List.take_sublist top_n _).subset h)
  refine ⟨List.mem_of_mem_filter h1, ?_⟩
  have h2 := List.of_mem_filter h1
  simpa using h2

theorem get_top_tacklers_local_eq (df : Table) (n : Nat) (mn mx : Option Int) :
    get_top_tacklers_local df n mn mx =
      match dropnaTackles (ageFiltered df (resolve_age_col df.cols) mn mx) with
      | none => none
      | some df2 =>
          selectCols
            (ensureCol (ensureCol
              (match resolve_age_col df.cols with
               | some c =>
                  if c = "age" then
                    (⟨df2.cols, (sortValues df2 "tackles" false).rows.take n⟩ : Table)
                  else
                    renameTable ⟨df2.cols, (sortValues df2 "tackles" false).rows.take n⟩ c "age"
               | none => (⟨df2.cols, (sortValues df2 "tackles" false).rows.take n⟩ : Table))
              "position") "nationality") tacklersCols := rfl

theorem tacklers_shape (df : Table) (top_n : Nat) (mn mx : Option Int) (out : Table)
    (h : get_top_tacklers_local df top_n mn mx = some out) :
    ∃ G : Row → Row,
      out.cols = tacklersCols ∧
      out.rows = (tacklersPre df top_n mn mx).map
        (fun r => tacklersCols.map fun c => (c, colVal (G r) c)) ∧
      (∀ r x, x = "player" ∨ x = "team" ∨ x = "tackles" → colVal (G r) x = colVal r x) ∧
      (∀ c, resolve_age_col df.cols = some c →
        ∀ r, "age" ∉ r.map Prod.fst → colVal (G r) "age" = colVal r c) := by
  rw [get_top_tacklers_local_eq] at h
  cases hdn : dropnaTackles (ageFiltered df (resolve_age_col df.cols) mn mx) with
  | none =>
      rw [hdn] at h
      exact absurd h (by intro h2; exact Option.noConfusion h2)
  | some df2 =>
      rw [hdn] at h
      obtain ⟨htk, hdf2⟩ := dropnaTackles_inv hdn
      have hpre : tacklersPre df top_n mn mx = (sortValues df2 "tackles" false).rows.take top_n := by
        rw [tacklersPre, hdf2]
      have h2 : selectCols (ensureCol (ensureCol
          (match resolve_age_col df.cols with
           | some c =>
              if c = "age" then
                (⟨df2.cols, (sortValues df2 "tackles" false).rows.take top_n⟩ : Table)
              else
                renameTable ⟨df2.cols, (sortValues df2 "tackles" false).rows.take top_n⟩ c "age"
           | none => (⟨df2.cols, (sortValues df2 "tackles" false).rows.take top_n⟩ : Table))
          "position") "nationality") tacklersCols = some out := h
      cases hres : resolve_age_col df.cols with
      | none =>
          rw [hres] at h2
          have h3 : selectCols (ensureCol (ensureCol
              (⟨df2.cols, (sortValues df2 "tackles" false).rows.take top_n⟩ : Table)
              "position") "nationality") tacklersCols = some out := h2
          obtain ⟨g1, hrows1, hpres1, _, _⟩ := ensureCol_exists_g
            (⟨df2.cols, (sortValues df2 "tackles" false).rows.take top_n⟩ : Table) "position"
          obtain ⟨g2, hrows2, hpres2, _, _⟩ := ensureCol_exists_g
            (ensureCol (⟨df2.cols, (sortValues df2 "tackles" false).rows.take top_n⟩ : Table)
              "position") "nationality"
          have hout := selectCols_inv h3
          subst hout
          refine ⟨fun r => g2 (g1 r), rfl, ?_, ?_, ?_⟩
          · show (ensureCol (ensureCol _ "position") "nationality").rows.map _ = _
            rw [hrows2, hrows1, hpre]
            simp only [List.map_map]
            rfl
          · intro r x hx
            have hx2 : x ≠ "nationality" := by rcases hx with rfl | rfl | rfl <;> decide
            have hx1 : x ≠ "position" := by rcases hx with rfl | rfl | rfl <;> decide
            rw [hpres2 _ x hx2, hpres1 _ x hx1]
          · intro c hc
            cases hc
      | some c =>
          rw [hres] at h2
          have hcm := resolve_age_col_mem hres
          by_cases hcage : c = "age"
          · have h3 : selectCols (ensureCol (ensureCol
                (if c = "age" then
                  (⟨df2.cols, (sortValues df2 "tackles" false).rows.take top_n⟩ : Table)
                else
                  renameTable ⟨df2.cols, (sortValues df2 "tackles" false).rows.take top_n⟩
                    c "age")
                "position") "nationality") tacklersCols = some out := h2
            rw [if_pos hcage] at h3
            obtain ⟨g1, hrows1, hpres1, _, _⟩ := ensureCol_exists_g
              (⟨df2.cols, (sortValues df2 "tackles" false).rows.take top_n⟩ : Table) "position"
            obtain ⟨g2, hrows2, hpres2, _, _⟩ := ensureCol_exists_g
              (ensureCol (⟨df2.cols, (sortValues df2 "tackles" false).rows.take top_n⟩ : Table)
                "position") "nationality"
            have hout := selectCols_inv h3
            subst hout
            refine ⟨fun r => g2 (g1 r), rfl, ?_, ?_, ?_⟩
            · show (ensureCol (ensureCol _ "position") "nationality").rows.map _ = _
              rw [hrows2, hrows1, hpre]
              simp only [List.map_map]
              rfl
            · intro r x hx
              have hx2 : x ≠ "nationality" := by rcases hx with rfl | rfl | rfl <;> decide
              have hx1 : x ≠ "position" := by rcases hx with rfl | rfl | rfl <;> decide
              rw [hpres2 _ x hx2, hpres1 _ x hx1]
            · intro c' hc' r hkeys
              have hcc : c' = c := (Option.some.inj hc').symm
              subst hcc
              rw [hpres2 _ "age" (by decide), hpres1 _ "age" (by decide), hcage]
          · have h3 : selectCols (ensureCol (ensureCol
                (if c = "age" then
                  (⟨df2.cols, (sortValues df2 "tackles" false).rows.take top_n⟩ : Table)
                else
                  renameTable ⟨df2.cols, (sortValues df2 "tackles" false).rows.take top_n⟩
                    c "age")
                "position") "nationality") tacklersCols = some out := h2
            rw [if_neg hcage] at h3
            have hne : "player" ≠ c ∧ "team" ≠ c ∧ "tackles" ≠ c := by
              rcases hcm.2 with rfl | rfl | rfl
              · exact absurd rfl hcage
              · exact ⟨by decide, by decide, by decide⟩
              · exact ⟨by decide, by decide, by decide⟩
            obtain ⟨g1, hrows1, hpres1, _, _⟩ := ensureCol_exists_g
              (renameTable ⟨df2.cols, (sortValues df2 "tackles" false).rows.take top_n⟩
                c "age") "position"
            obtain ⟨g2, hrows2, hpres2, _, _⟩ := ensureCol_exists_g
              (ensureCol (renameTable ⟨df2.cols,
                  (sortValues df2 "tackles" false).rows.take top_n⟩ c "age")
                "position") "nationality"
            have hout := selectCols_inv h3
            subst hout
            refine ⟨fun r => g2 (g1 (renRow c "age" r)), rfl, ?_, ?_, ?_⟩
            · show (ensureCol (ensureCol _ "position") "nationality").rows.map _ = _
              rw [hrows2, hrows1, hpre]
              simp only [renameTable, List.map_map]
              rfl
            · intro r x hx
              have hx2 : x ≠ "nationality" := by rcases hx with rfl | rfl | rfl <;> decide
              have hx1 : x ≠ "position" := by rcases hx with rfl | rfl | rfl <;> decide
              have hxc : x ≠ c := by
                rcases hx with rfl | rfl | rfl
                · exact hne.1
                · exact hne.2.1
                · exact hne.2.2
              have hxa : x ≠ "age" := by rcases hx with rfl | rfl | rfl <;> decide
              rw [hpres2 _ x hx2, hpres1 _ x hx1, colVal_renRow_ne r c "age" x hxc hxa]
            · intro c' hc' r hkeys
              have hcc : c' = c := (Option.some.inj hc').symm
              subst hcc
              rw [hpres2 _ "age" (by decide), hpres1 _ "age" (by decide),
                colVal_renRow_to r c' "age" hkeys]

theorem tacklers_sel_mem (t : Table) (hp : "player" ∈ t.cols) (ht : "team" ∈ t.cols)
    (htk : "tackles" ∈ t.cols) (ha : "age" ∈ t.cols) :
    ∀ x ∈ tacklersCols, x ∈ (ensureCol (ensureCol t "position") "nationality").cols := by
  obtain ⟨_, _, _, hmem1, hself1⟩ := ensureCol_exists_g t "position"
  obtain ⟨_, _, _, hmem2, hself2⟩ := ensureCol_exists_g (ensureCol t "position") "nationality"
  intro x hx
  simp only [tacklersCols, List.mem_cons, List.not_mem_nil, or_false] at hx
  rcases hx with rfl | rfl | rfl | rfl | rfl | rfl
  · exact hmem2 _ (hmem1 _ hp)
  · exact hmem2 _ (hmem1 _ ht)
  · exact hmem2 _ (hmem1 _ ha)
  · exact hmem2 _ (hmem1 _ htk)
  · exact hmem2 _ hself1
  · exact hself2

theorem tacklers_success (df : Table) (top_n : Nat) (mn mx : Option Int) (c : String)
    (hres : resolve_age_col df.cols = some c)
    (hp : "player" ∈ df.cols) (ht : "team" ∈ df.cols) (htk : "tackles" ∈ df.cols) :
    ∃ out, get_top_tacklers_local df top_n mn mx = some out := by
  have hcm := resolve_age_col_mem hres
  have hacols : (ageFiltered df (resolve_age_col df.cols) mn mx).cols = df.cols :=
    ageFiltered_cols df _ mn mx
  have hdn : dropnaTackles (ageFiltered df (resolve_age_col df.cols) mn mx) =
      some ⟨(ageFiltered df (resolve_age_col df.cols) mn mx).cols,
        (ageFiltered df (resolve_age_col df.cols) mn mx).rows.filter
          fun r => !decide (colVal r "tackles" = Val.na)⟩ := by
    rw [dropnaTackles, if_pos (hacols.symm ▸ htk)]
  have hpc : "player" ∈ (ageFiltered df (resolve_age_col df.cols) mn mx).cols :=
    hacols.symm ▸ hp
  have htc : "team" ∈ (ageFiltered df (resolve_age_col df.cols) mn mx).cols :=
    hacols.symm ▸ ht
  have htkc : "tackles" ∈ (ageFiltered df (resolve_age_col df.cols) mn mx).cols :=
    hacols.symm ▸ htk
  have hcc : c ∈ (ageFiltered df (resolve_age_col df.cols) mn mx).cols :=
    hacols.symm ▸ hcm.1
  rcases hcm.2 with rfl | rfl | rfl
  · rw [hres] at hdn hpc htc htkc hcc
    have hsel := selectCols_some _ tacklersCols
      (tacklers_sel_mem (⟨(ageFiltered df (some "age") mn mx).cols,
          (sortValues ⟨(ageFiltered df (some "age") mn mx).cols,
            (ageFiltered df (some "age") mn mx).rows.filter
              fun r => !decide (colVal r "tackles" = Val.na)⟩ "tackles" false).rows.take top_n⟩ :
          Table) hpc htc htkc hcc)
    exact ⟨_, by rw [get_top_tacklers_local_eq, hres, hdn]; exact hsel⟩
  · rw [hres] at hdn hpc htc htkc hcc
    have hsel := selectCols_some _ tacklersCols
      (tacklers_sel_mem (renameTable (⟨(ageFiltered df (some "age_x") mn mx).cols,
          (sortValues ⟨(ageFiltered df (some "age_x") mn mx).cols,
            (ageFiltered df (some "age_x") mn mx).rows.filter
              fun r => !decide (colVal r "tackles" = Val.na)⟩ "tackles" false).rows.take top_n⟩ :
          Table) "age_x" "age")
        (renameTable_cols_mem _ _ _ _ hpc (by decide))
        (renameTable_cols_mem _ _ _ _ htc (by decide))
        (renameTable_cols_mem _ _ _ _ htkc (by decide))
        (renameTable_cols_new _ _ _ hcc))
    exact ⟨_, by rw [get_top_tacklers_local_eq, hres, hdn]; exact hsel⟩
  · rw [hres] at hdn hpc htc htkc hcc
    have hsel := selectCols_some _ tacklersCols
      (tacklers_sel_mem (renameTable (⟨(ageFiltered df (some "age_y") mn mx).cols,
          (sortValues ⟨(ageFiltered df (some "age_y") mn mx).cols,
            (ageFiltered df (some "age_y") mn mx).rows.filter
              fun r => !decide (colVal r "tackles" = Val.na)⟩ "tackles" false).rows.take top_n⟩ :
          Table) "age_y" "age")
        (renameTable_cols_mem _ _ _ _ hpc (by decide))
        (renameTable_cols_mem _ _ _ _ htc (by decide))
        (renameTable_cols_mem _ _ _ _ htkc (by decide))
        (renameTable_cols_new _ _ _ hcc))
    exact ⟨_, by rw [get_top_tacklers_local_eq, hres, hdn]; exact hsel⟩

/-- C8: in the Tackler Extractor local path, with age bounds supplied, a row
with a missing age passes the age filter, a row with a defined age inside the
inclusive bounds passes it too, and every row of the returned table has a
defined tackles value (rows missing the metric were dropped before
ranking). -/
theorem claim8_extractor_filters (df : Table) (top_n : Nat) (min_age max_age : Option Int)
    (c : String) (out : Table)
    (hres : resolve_age_col df.cols = some c)
    (hout : get_top_tacklers_local df top_n min_age max_age = some out) :
    (∀ r ∈ df.rows, colVal r c = Val.na →
        r ∈ (ageFiltered df (some c) min_age max_age).rows) ∧
    (∀ r ∈ df.rows, ∀ q : Rat, colVal r c = Val.num q →
        (∀ a : Int, min_age = some a → mkRat a 1 ≤ q) →
        (∀ b : Int, max_age = some b → q ≤ mkRat b 1) →
        r ∈ (ageFiltered df (some c) min_age max_age).rows) ∧
    (∀ r ∈ out.rows, colVal r "tackles" ≠ Val.na) := by
  refine ⟨?_, ?_, ?_⟩
  · intro r hr hna
    cases min_age with
    | none =>
        cases max_age with
        | none => exact hr
        | some b =>
            show r ∈ df.rows.filter fun r =>
              valLeNum (colVal r c) (mkRat b 1) || decide (colVal r c = Val.na)
            exact List.mem_filter.mpr ⟨hr, by simp [hna]⟩
    | some a =>
        cases max_age with
        | none =>
            show r ∈ df.rows.filter fun r =>
              valGeNum (colVal r c) (mkRat a 1) || decide (colVal r c = Val.na)
            exact List.mem_filter.mpr ⟨hr, by simp [hna]⟩
        | some b =>
            show r ∈ (df.rows.filter fun r =>
              valGeNum (colVal r c) (mkRat a 1) || decide (colVal r c = Val.na)).filter
                fun r => valLeNum (colVal r c) (mkRat b 1) || decide (colVal r c = Val.na)
            refine List.mem_filter.mpr ⟨List.mem_filter.mpr ⟨hr, by simp [hna]⟩, by simp [hna]⟩
  · intro r hr q hq hmin hmax
    cases min_age with
    | none =>
        cases max_age with
        | none => exact hr
        | some b =>
            show r ∈ df.rows.filter fun r =>
              valLeNum (colVal r c) (mkRat b 1) || decide (colVal r c = Val.na)
            refine List.mem_filter.mpr ⟨hr, ?_⟩
            simp only [hq, valLeNum, Bool.or_eq_true, decide_eq_true_eq]
            exact Or.inl (by simpa using hmax b rfl)
    | some a =>
        cases max_age with
        | none =>
            show r ∈ df.rows.filter fun r =>
              valGeNum (colVal r c) (mkRat a 1) || decide (colVal r c = Val.na)
            refine List.mem_filter.mpr ⟨hr, ?_⟩
            simp only [hq, valGeNum, Bool.or_eq_true, decide_eq_true_eq]
            exact Or.inl (by simpa using hmin a rfl)
        | some b =>
            show r ∈ (df.rows.filter fun r =>
              valGeNum (colVal r c) (mkRat a 1) || decide (colVal r c = Val.na)).filter
                fun r => valLeNum (colVal r c) (mkRat b 1) || decide (colVal r c = Val.na)
            refine List.mem_filter.mpr ⟨List.mem_filter.mpr ⟨hr, ?_⟩, ?_⟩
            · simp only [hq, valGeNum, Bool.or_eq_true, decide_eq_true_eq]
              exact Or.inl (by simpa using hmin a rfl)
            · simp only [hq, valLeNum, Bool.or_eq_true, decide_eq_true_eq]
              exact Or.inl (by simpa using hmax b rfl)
  · obtain ⟨G, hcols, hrows, hpres, _⟩ := tacklers_shape df top_n min_age max_age out hout
    intro r hr
    rw [hrows] at hr
    obtain ⟨r', hr', rfl⟩ := List.mem_map.mp hr
    rw [colVal_mapped tacklersCols (G r') "tackles" (by decide),
      hpres r' "tackles" (Or.inr (Or.inr rfl))]
    exact (mem_tacklersPre df top_n min_age max_age r' hr').2

/-- The input for the C8 witness: a row with missing age, a row with missing
tackles, a normal row. -/
def c8df : Table :=
  ⟨["player", "team", "age", "tackles"],
   [[("player", .str "A"), ("team", .str "T"), ("age", Val.na),
     ("tackles", .num (mkRat 5 1))],
    [("player", .str "B"), ("team", .str "T"), ("age", .num (mkRat 25 1)),
     ("tackles", Val.na)],
    [("player", .str "C"), ("team", .str "T"), ("age", .num (mkRat 22 1)),
     ("tackles", .num (mkRat 3 1))]]⟩

theorem claim8_witness :
    (get_top_tacklers_local c8df 2 (some 18) (some 30)).elim False (fun out =>
      (∀ r ∈ c8df.rows, colVal r "age" = Val.na →
          r ∈ (ageFiltered c8df (some "age") (some 18) (some 30)).rows) ∧
      (∀ r ∈ c8df.rows, ∀ q : Rat, colVal r "age" = Val.num q →
          (∀ a : Int, (some 18 : Option Int) = some a → mkRat a 1 ≤ q) →
          (∀ b : Int, (some 30 : Option Int) = some b → q ≤ mkRat b 1) →
          r ∈ (ageFiltered c8df (some "age") (some 18) (some 30)).rows) ∧
      (∀ r ∈ out.rows, colVal r "tackles" ≠ Val.na)) := by
  cases hb : get_top_tacklers_local c8df 2 (some 18) (some 30) with
  | none => exact absurd hb (by decide)
  | some out =>
      exact claim8_extractor_filters c8df 2 (some 18) (some 30) "age" out (by decide) hb

/-- C7: the age-column resolution used by both entry points tries age, then
age_x, then age_y, and a table carrying only age_x exposes that column as the
canonical age name downstream: the Tackler Extractor output carries it as the
age column (with the values taken from age_x), and the dashboard display
carries it under the fixed Age label. -/
theorem claim7_age_reconciliation :
    (∀ cols : List String,
      ("age" ∈ cols → resolve_age_col cols = some "age") ∧
      ("age" ∉ cols → "age_x" ∈ cols → resolve_age_col cols = some "age_x") ∧
      ("age" ∉ cols → "age_x" ∉ cols → "age_y" ∈ cols →
        resolve_age_col cols = some "age_y")) ∧
    (∀ (df : Table) (n : Nat) (mn mx : Option Int) (out : Table),
      "age" ∉ df.cols → "age_x" ∈ df.cols →
      (∀ r ∈ df.rows, r.map Prod.fst = df.cols) →
      get_top_tacklers_local df n mn mx = some out →
      out.cols = tacklersCols ∧ "age" ∈ out.cols ∧ "age_x" ∉ out.cols ∧
      ∀ r ∈ out.rows, ∃ s ∈ df.rows, colVal r "age" = colVal s "age_x") ∧
    (∀ (df : Table) (metric : String) (per_90 : Bool) (mm : Int) (asc : Bool),
      "age" ∉ df.cols → "age_x" ∈ df.cols →
      "player" ∈ df.cols → "team" ∈ df.cols → metric ∈ df.cols →
      rankingCol df metric per_90 ∉ (["Rk", "player", "team", "age_x"] : List String) →
      ∃ disp, build_top_table df metric per_90 mm asc (some ["age_x"]) = some disp ∧
        disp.cols = ["Rk", "player", "team", relabelCol (prettyName metric), "Age"]) := by
  refine ⟨?_, ?_, ?_⟩
  · intro cols
    refine ⟨?_, ?_, ?_⟩
    · intro h1
      rw [resolve_age_col, if_pos h1]
    · intro h1 h2
      rw [resolve_age_col, if_neg h1, if_pos h2]
    · intro h1 h2 h3
      rw [resolve_age_col, if_neg h1, if_neg h2, if_pos h3]
  · intro df n mn mx out h1 h2 hwf hout
    have hres : resolve_age_col df.cols = some "age_x" := by
      rw [resolve_age_col, if_neg h1, if_pos h2]
    obtain ⟨G, hcols, hrows, hpres, hage⟩ := tacklers_shape df n mn mx out hout
    refine ⟨hcols, by rw [hcols]; decide, by rw [hcols]; decide, ?_⟩
    intro r hr
    rw [hrows] at hr
    obtain ⟨r', hr', rfl⟩ := List.mem_map.mp hr
    have hmem : r' ∈ df.rows :=
      ageFiltered_rows_sub df _ mn mx r' (mem_tacklersPre df n mn mx r' hr').1
    refine ⟨r', hmem, ?_⟩
    rw [colVal_mapped tacklersCols (G r') "age" (by decide)]
    exact hage "age_x" hres r' (by rw [hwf r' hmem]; exact h1)
  · intro df metric per_90 mm asc h1 h2 hp ht hm hfresh
    obtain ⟨disp, hbuild, hcols⟩ := build_top_table_success df metric per_90 mm asc ["age_x"]
      hp ht hm (by intro e he; rw [List.mem_singleton.mp he]; exact h2)
    simp only [List.mem_cons, List.not_mem_nil, or_false, not_or] at hfresh
    obtain ⟨hf1, hf2, hf3, hf4⟩ := hfresh
    refine ⟨disp, hbuild, ?_⟩
    rw [hcols]
    have e1 : renameStr (rankingCol df metric per_90) (prettyName metric) "Rk" = "Rk" := by
      rw [renameStr, if_neg (fun e => hf1 e.symm)]
    have e2 : renameStr (rankingCol df metric per_90) (prettyName metric) "player" =
        "player" := by
      rw [renameStr, if_neg (fun e => hf2 e.symm)]
    have e3 : renameStr (rankingCol df metric per_90) (prettyName metric) "team" = "team" := by
      rw [renameStr, if_neg (fun e => hf3 e.symm)]
    have e4 : renameStr (rankingCol df metric per_90) (prettyName metric)
        (rankingCol df metric per_90) = prettyName metric := by
      rw [renameStr, if_pos rfl]
    have e5 : renameStr (rankingCol df metric per_90) (prettyName metric) "age_x" =
        "age_x" := by
      rw [renameStr, if_neg (fun e => hf4 e.symm)]
    simp only [List.cons_append, List.nil_append, List.map_cons, List.map_nil,
      e1, e2, e3, e4, e5]
    rfl

/-- The input for the C7 witness: only the suffixed age_x variant is
present. -/
def c7df : Table :=
  ⟨["player", "team", "age_x", "goals", "tackles"],
   [[("player", .str "A"), ("team", .str "T"), ("age_x", .num (mkRat 21 1)),
     ("goals", .num (mkRat 2 1)), ("tackles", .num (mkRat 7 1))],
    [("player", .str "B"), ("team", .str "T"), ("age_x", .num (mkRat 28 1)),
     ("goals", .num (mkRat 5 1)), ("tackles", .num (mkRat 4 1))]]⟩

theorem claim7_witness :
    resolve_age_col ["team", "age_x"] = some "age_x" ∧
    (get_top_tacklers_local c7df 2 none none).elim False (fun out =>
      out.cols = tacklersCols ∧ "age" ∈ out.cols ∧ "age_x" ∉ out.cols ∧
      ∀ r ∈ out.rows, ∃ s ∈ c7df.rows, colVal r "age" = colVal s "age_x") ∧
    (∃ disp, build_top_table c7df "goals" false 0 false (some ["age_x"]) = some disp ∧
      disp.cols = ["Rk", "player", "team", relabelCol (prettyName "goals"), "Age"]) := by
  refine ⟨(claim7_age_reconciliation.1 ["team", "age_x"]).2.1 (by decide) (by decide), ?_, ?_⟩
  · cases hb : get_top_tacklers_local c7df 2 none none with
    | none => exact absurd hb (by decide)
    | some out =>
        exact claim7_age_reconciliation.2.1 c7df 2 none none out (by decide) (by decide)
          (by decide) hb
  · exact claim7_age_reconciliation.2.2 c7df "goals" false 0 false (by decide) (by decide)
      (by decide) (by decide) (by decide) (by decide)

/-- C9: on a local table of 20 rows with pairwise-distinct defined tackle
counts and top n 15, the Tackler Extractor returns a table of exactly 15
rows, with exactly the columns player, team, age, tackles, position,
nationality in that order, sorted so that the tackles values are
non-increasing along the rows. -/
theorem claim9_top15 (df : Table) (c : String)
    (hres : resolve_age_col df.cols = some c)
    (hp : "player" ∈ df.cols) (ht : "team" ∈ df.cols) (htk : "tackles" ∈ df.cols)
    (hlen : df.rows.length = 20)
    (hnum : ∀ r ∈ df.rows, valIsNum (colVal r "tackles") = true)
    (hdist : (df.rows.map fun r => colVal r "tackles").Nodup) :
    ∃ out, get_top_tacklers_local df 15 none none = some out ∧
      out.rows.length = 15 ∧ out.cols = tacklersCols ∧
      out.rows.Pairwise (fun r s =>
        valLeB (colVal s "tackles") (colVal r "tackles") = true) := by
  obtain ⟨out, hout⟩ := tacklers_success df 15 none none c hres hp ht htk
  obtain ⟨G, hcols, hrows, hpres, _⟩ := tacklers_shape df 15 none none out hout
  have hAf : ageFiltered df (resolve_age_col df.cols) none none = df := ageFiltered_none df _
  have hfil : df.rows.filter (fun r => !decide (colVal r "tackles" = Val.na)) = df.rows := by
    apply List.filter_eq_self.mpr
    intro r hr
    have h := hnum r hr
    cases hv : colVal r "tackles" <;> simp_all [valIsNum]
  have hnil : df.rows.filter (fun r => decide (colVal r "tackles" = Val.na)) = [] := by
    rw [List.filter_eq_nil_iff]
    intro r hr
    have h := hnum r hr
    cases hv : colVal r "tackles" <;> simp_all [valIsNum]
  have htbl : (⟨df.cols, df.rows.filter fun r => !decide (colVal r "tackles" = Val.na)⟩ :
      Table) = ⟨df.cols, df.rows⟩ := by rw [hfil]
  have hpre : tacklersPre df 15 none none =
      (sortOrd (fun r s => valLeB (colVal s "tackles") (colVal r "tackles")) df.rows).take 15 := by
    rw [tacklersPre, hAf, htbl]
    show ((sortOrd _ (df.rows.filter fun r => !decide (colVal r "tackles" = Val.na)) ++
      df.rows.filter fun r => decide (colVal r "tackles" = Val.na)).take 15) = _
    rw [hfil, hnil, List.append_nil]
    rfl
  refine ⟨out, hout, ?_, hcols, ?_⟩
  · rw [hrows, List.length_map, hpre, List.length_take, length_sortOrd, hlen]
    rfl
  · rw [hrows, List.pairwise_map]
    have hP : (tacklersPre df 15 none none).Pairwise
        (fun a b => valLeB (colVal b "tackles") (colVal a "tackles") = true) := by
      rw [hpre]
      refine List.Pairwise.sublist (List.take_sublist 15 _) ?_
      refine pairwise_sortOrd _ ?_ ?_ df.rows
      · intro a b d h1 h2
        exact valLeB_trans _ _ _ h2 h1
      · intro a b
        rw [Bool.or_comm]
        exact valLeB_total _ _
    refine hP.imp ?_
    intro a b h
    rw [colVal_mapped tacklersCols (G a) "tackles" (by decide),
      colVal_mapped tacklersCols (G b) "tackles" (by decide),
      hpres a "tackles" (Or.inr (Or.inr rfl)), hpres b "tackles" (Or.inr (Or.inr rfl))]
    exact h

/-- The input for the C9 witness: 20 rows with distinct tackle counts. -/
def c9df : Table :=
  ⟨["player", "team", "age", "tackles"],
   (List.range 20).map fun i =>
     [("player", .str (toString i)), ("team", .str "T"),
      ("age", .num (mkRat 25 1)), ("tackles", .num (mkRat (i : Int) 1))]⟩

theorem claim9_witness :
    ∃ out, get_top_tacklers_local c9df 15 none none = some out ∧
      out.rows.length = 15 ∧ out.cols = tacklersCols ∧
      out.rows.Pairwise (fun r s =>
        valLeB (colVal s "tackles") (colVal r "tackles") = true) :=
  claim9_top15 c9df "age" (by decide) (by decide) (by decide) (by decide) (by decide)
    (by decide) (by decide)
